import Mathlib

/-!
# Verification of the rs-sdk checkpoint-based task supervision engine

Shallow embedding of the repository's core:

* `src/sdk/state-diff.ts` — the world-snapshot differ (`computeStateDiff`,
  `createEmptyDiff`);
* `src/sdk/task-context.ts` (src/unnamed/part_000) — the per-task execution
  context (`TaskContext`: checkpoint, reportProgress, getStatus, complete,
  fail, cleanup);
* `src/mcp/task-manager.ts` (src/unnamed/part_001) — the task registry
  (`TaskManager`: startTask, handleCheckpoint, continueTask, abortTask,
  completeTask, failTask, cleanup);
* the invocation harness in `src/mcp/server.ts` (`run_task`): invokes the
  task body once and classifies the outcome, calling `completeTask` when the
  body returns.

JavaScript numbers are modelled as `Int` (all quantities the code
manipulates are integers); JS `Map` insertion-order semantics are modelled
explicitly; promise resolution is modelled as an explicit queue of scheduled
resumptions on the system state.
-/

namespace RsSdk

/-! ## World snapshot data model (src/sdk/types.ts as used by state-diff.ts) -/

/-- One inventory stack entry `{id, name, count}`. -/
structure InvItem where
  id : Int
  name : String
  count : Int
  deriving Repr, DecidableEq

/-- One skill `{name, experience, level, baseLevel}`.  `level` is the
(boosted) level used for the Hitpoints health computation; `baseLevel` is
the leveled attribute used for level-up detection. -/
structure SkillState where
  name : String
  experience : Int
  level : Int
  baseLevel : Int
  deriving Repr, DecidableEq

/-- Player coordinates `{worldX, worldZ}`. -/
structure PlayerPos where
  worldX : Int
  worldZ : Int
  deriving Repr, DecidableEq

/-- A timestamped combat event; `type` is one of `"damage_taken"`,
`"damage_dealt"`, `"kill"`. -/
structure CombatEvent where
  tick : Int
  type : String
  damage : Int
  deriving Repr, DecidableEq

/-- Dialog state: only the `isOpen` flag is read by the differ. -/
structure DialogState where
  isOpen : Bool
  deriving Repr, DecidableEq

/-- A generic openable panel (the `interface` field). -/
structure PanelState where
  isOpen : Bool
  deriving Repr, DecidableEq

/-- Shop state: `isOpen` plus the `title` used in the summary line. -/
structure ShopState where
  isOpen : Bool
  title : String
  deriving Repr, DecidableEq

/-- A nearby NPC `{index, name, inCombat}`; `index` is the stable
per-instance key. -/
structure NearbyNpc where
  index : Int
  name : String
  inCombat : Bool
  deriving Repr, DecidableEq

/-- A timestamped game message. -/
structure GameMessage where
  tick : Int
  text : String
  deriving Repr, DecidableEq

/-- `BotWorldState`: the immutable world snapshot read by the differ.
Optional TS fields (`player?`, `combatEvents?`, `interface?`, `shop?`,
`gameMessages?`) are `Option`s. -/
structure BotWorldState where
  tick : Int
  inventory : List InvItem
  skills : List SkillState
  player : Option PlayerPos
  combatEvents : Option (List CombatEvent)
  dialog : DialogState
  interface : Option PanelState
  shop : Option ShopState
  nearbyNpcs : List NearbyNpc
  gameMessages : Option (List GameMessage)
  deriving Repr, DecidableEq

/-! ## StateDiff data model (src/sdk/state-diff.ts) -/

/-- `diff.tick`. -/
structure TickInfo where
  before : Int
  after : Int
  elapsed : Int
  deriving Repr, DecidableEq

/-- Entry of `inventory.gained` / `inventory.lost`: `{name, count, id}`. -/
structure InvDelta where
  name : String
  count : Int
  id : Int
  deriving Repr, DecidableEq

/-- Entry of `inventory.changed`: `{name, before, after, id}`. -/
structure InvChange where
  name : String
  before : Int
  after : Int
  id : Int
  deriving Repr, DecidableEq

/-- `diff.inventory`. -/
structure InvDiff where
  gained : List InvDelta
  lost : List InvDelta
  changed : List InvChange
  deriving Repr, DecidableEq

/-- Entry of `skills.xpGained`: `{name, xp, levelUp?, newLevel?}`.  The
code always sets `levelUp` on pushed entries and sets `newLevel` only on a
level-up. -/
structure XpEntry where
  name : String
  xp : Int
  levelUp : Bool
  newLevel : Option Int
  deriving Repr, DecidableEq

/-- `diff.combat`. -/
structure CombatDiff where
  damageTaken : Int
  damageDealt : Int
  kills : Int
  healthChange : Int
  deriving Repr, DecidableEq

/-- `diff.position`; `fromPos`/`toPos` embed the TS fields `from`/`to`
(renamed because `from` is a Lean keyword). -/
structure PosDiff where
  moved : Bool
  fromPos : Option PlayerPos
  toPos : Option PlayerPos
  distance : Nat
  deriving Repr, DecidableEq

/-- `diff.ui`. -/
structure UiDiff where
  dialogOpened : Bool
  dialogClosed : Bool
  interfaceOpened : Bool
  interfaceClosed : Bool
  shopOpened : Bool
  shopClosed : Bool
  deriving Repr, DecidableEq

/-- Entry of `npcs.appeared`/`disappeared`/`died`: `{name, index}`. -/
structure NpcRef where
  name : String
  index : Int
  deriving Repr, DecidableEq

/-- `diff.npcs`. -/
structure NpcDiff where
  appeared : List NpcRef
  disappeared : List NpcRef
  died : List NpcRef
  deriving Repr, DecidableEq

/-- The full `StateDiff` record. -/
structure StateDiff where
  tick : TickInfo
  inventory : InvDiff
  skills : List XpEntry
  combat : CombatDiff
  position : PosDiff
  ui : UiDiff
  npcs : NpcDiff
  messages : List String
  summary : List String
  deriving Repr, DecidableEq

/-- `createEmptyDiff(tick)`. -/
def createEmptyDiff (tick : Int) : StateDiff :=
  { tick := { before := tick, after := tick, elapsed := 0 }
    inventory := { gained := [], lost := [], changed := [] }
    skills := []
    combat := { damageTaken := 0, damageDealt := 0, kills := 0, healthChange := 0 }
    position := { moved := false, fromPos := none, toPos := none, distance := 0 }
    ui := { dialogOpened := false, dialogClosed := false,
            interfaceOpened := false, interfaceClosed := false,
            shopOpened := false, shopClosed := false }
    npcs := { appeared := [], disappeared := [], died := [] }
    messages := []
    summary := [] }

/-! ## Differ algorithm (src/sdk/state-diff.ts, computeStateDiff)

JS `Map` semantics: `set` on an existing key updates in place (keeping the
original insertion position); iteration is in insertion order.  The
inventory maps (`beforeInv`/`afterInv`) group stack entries by item id,
summing counts; the NPC maps key by `index`, last value winning. -/

/-- One `Map.set`-with-sum step of the inventory grouping loop. -/
def addInvItem (acc : List InvItem) (it : InvItem) : List InvItem :=
  if acc.any (fun g => g.id == it.id) then
    acc.map (fun g => if g.id == it.id then { g with count := g.count + it.count } else g)
  else
    acc ++ [it]

/-- `beforeInv` / `afterInv`: group by item id, summing counts, in first
insertion order (the stored record keeps the first entry's `name`). -/
def groupInv (inv : List InvItem) : List InvItem :=
  inv.foldl addInvItem []

/-- `Map.get(id)` on a grouped inventory list. -/
def invLookup (l : List InvItem) (id : Int) : Option InvItem :=
  l.find? (fun g => g.id == id)

/-- The gained-items loop over `afterInv` (insertion order): accumulates
`gained`, `changed` and summary lines. -/
def invGainStep (beforeG : List InvItem)
    (st : List InvDelta × List InvChange × List String) (item : InvItem) :
    List InvDelta × List InvChange × List String :=
  match invLookup beforeG item.id with
  | none =>
      (st.1 ++ [{ name := item.name, count := item.count, id := item.id }],
       st.2.1,
       st.2.2 ++ ["+" ++ toString item.count ++ " " ++ item.name])
  | some beforeItem =>
      if beforeItem.count < item.count then
        (st.1,
         st.2.1 ++ [{ name := item.name, before := beforeItem.count,
                      after := item.count, id := item.id }],
         st.2.2 ++ ["+" ++ toString (item.count - beforeItem.count) ++ " " ++ item.name])
      else st

/-- The lost-items loop over `beforeInv`: accumulates `lost`, possibly adds
to `changed` (skipping ids already recorded there), and summary lines. -/
def invLossStep (afterG : List InvItem)
    (st : List InvDelta × List InvChange × List String) (item : InvItem) :
    List InvDelta × List InvChange × List String :=
  match invLookup afterG item.id with
  | none =>
      (st.1 ++ [{ name := item.name, count := item.count, id := item.id }],
       st.2.1,
       st.2.2 ++ ["-" ++ toString item.count ++ " " ++ item.name])
  | some afterItem =>
      if afterItem.count < item.count then
        (st.1,
         (if st.2.1.any (fun c => c.id == item.id) then st.2.1
          else st.2.1 ++ [{ name := item.name, before := item.count,
                            after := afterItem.count, id := item.id }]),
         st.2.2 ++ ["-" ++ toString (item.count - afterItem.count) ++ " " ++ item.name])
  else st

/-- Inventory section of the diff: `(gained, lost, changed)` plus its
summary lines, in the code's push order (all gains, then all losses). -/
def invSection (before after : List InvItem) : InvDiff × List String :=
  let beforeG := groupInv before
  let afterG := groupInv after
  let gains := afterG.foldl (invGainStep beforeG) ([], [], [])
  let losses := beforeG.foldl (invLossStep afterG) ([], gains.2.1, [])
  ({ gained := gains.1, lost := losses.1, changed := losses.2.1 },
   gains.2.2 ++ losses.2.2)

/-- `beforeSkills.get(name)`: a JS `Map` built by `set` over the list keeps
the *last* value stored for a name. -/
def skillLookup (skills : List SkillState) (n : String) : Option SkillState :=
  skills.reverse.find? (fun s => s.name == n)

/-- The `xpGained` entry pushed for an after-skill `s` whose before-state is
`b` (only pushed when `s.experience > b.experience`). -/
def mkXpEntry (s b : SkillState) : XpEntry :=
  { name := s.name
    xp := s.experience - b.experience
    levelUp := decide (b.baseLevel < s.baseLevel)
    newLevel := if b.baseLevel < s.baseLevel then some s.baseLevel else none }

/-- Summary line pushed together with an `xpGained` entry. -/
def xpSummaryLine (s b : SkillState) : String :=
  if b.baseLevel < s.baseLevel then
    "LEVEL UP! " ++ s.name ++ " -> " ++ toString s.baseLevel
  else
    "+" ++ toString (s.experience - b.experience) ++ " " ++ s.name ++ " XP"

/-- One iteration of the skill loop over `after.skills`. -/
def skillStep (beforeSkills : List SkillState)
    (st : List XpEntry × List String) (s : SkillState) :
    List XpEntry × List String :=
  match skillLookup beforeSkills s.name with
  | some b =>
      if b.experience < s.experience then
        (st.1 ++ [mkXpEntry s b], st.2 ++ [xpSummaryLine s b])
      else st
  | none => st

/-- Skill section: `xpGained` entries plus summary lines. -/
def skillSection (before after : List SkillState) : List XpEntry × List String :=
  after.foldl (skillStep before) ([], [])

/-- The optional `xpGained` entry one after-skill contributes. -/
def xpPick (before : List SkillState) (s : SkillState) : Option XpEntry :=
  match skillLookup before s.name with
  | some bs => if bs.experience < s.experience then some (mkXpEntry s bs) else none
  | none => none

/-- The optional summary line one after-skill contributes. -/
def xpLinePick (before : List SkillState) (s : SkillState) : Option String :=
  match skillLookup before s.name with
  | some bs => if bs.experience < s.experience then some (xpSummaryLine s bs) else none
  | none => none

/-- `skills.find(s => s.name === 'Hitpoints')?.level ?? 10`. -/
def hitpointsLevel (skills : List SkillState) : Int :=
  match skills.find? (fun s => s.name == "Hitpoints") with
  | some s => s.level
  | none => 10

/-- One combat event accumulation step `(damageTaken, damageDealt, kills)`. -/
def combatStep (st : Int × Int × Int) (evt : CombatEvent) : Int × Int × Int :=
  if evt.type == "damage_taken" then (st.1 + evt.damage, st.2.1, st.2.2)
  else if evt.type == "damage_dealt" then (st.1, st.2.1 + evt.damage, st.2.2)
  else if evt.type == "kill" then (st.1, st.2.1, st.2.2 + 1)
  else st

/-- Combat section: aggregates from events with `tick > before.tick`, the
Hitpoints health delta, and the combat summary lines. -/
def combatSection (before after : BotWorldState) : CombatDiff × List String :=
  let healthChange := hitpointsLevel after.skills - hitpointsLevel before.skills
  let newEvents := (after.combatEvents.getD []).filter (fun e => before.tick < e.tick)
  let agg := newEvents.foldl combatStep (0, 0, 0)
  let c : CombatDiff :=
    { damageTaken := agg.1, damageDealt := agg.2.1, kills := agg.2.2,
      healthChange := healthChange }
  (c,
   (if 0 < c.damageTaken then ["Took " ++ toString c.damageTaken ++ " damage"] else []) ++
   (if 0 < c.damageDealt then ["Dealt " ++ toString c.damageDealt ++ " damage"] else []) ++
   (if 0 < c.kills then ["Killed " ++ toString c.kills ++ " target(s)"] else []))

/-- Largest `r ≤ fuel` with `r * r ≤ n` (0 when none). -/
def sqrtAux : Nat → Nat → Nat
  | 0, _ => 0
  | fuel + 1, n => if (fuel + 1) * (fuel + 1) ≤ n then fuel + 1 else sqrtAux fuel n

/-- `⌊√n⌋`, by downward search from `n` (kernel-computable). -/
def floorSqrt (n : Nat) : Nat :=
  sqrtAux n n

/-- `Math.round(Math.sqrt n)` for a natural `n`: JS rounds half up, and
`√n + 1/2` is never an integer for integer `n`, so this is
`⌊(⌊√(4n)⌋ + 1) / 2⌋`. -/
def roundSqrt (n : Nat) : Nat :=
  (floorSqrt (4 * n) + 1) / 2

/-- Position section: set only when both snapshots carry a player and the
Euclidean distance is nonzero; the stored `distance` is the rounded
distance, the summary line requires distance ≥ 5 (squared ≥ 25). -/
def positionSection (before after : BotWorldState) : PosDiff × List String :=
  match before.player, after.player with
  | some pb, some pa =>
      let dx := pa.worldX - pb.worldX
      let dz := pa.worldZ - pb.worldZ
      let sq := dx * dx + dz * dz
      if 0 < sq then
        ({ moved := true, fromPos := some pb, toPos := some pa,
           distance := roundSqrt sq.toNat },
         if 25 ≤ sq then
           ["Moved " ++ toString (roundSqrt sq.toNat) ++ " tiles"]
         else [])
      else ((createEmptyDiff 0).position, [])
  | _, _ => ((createEmptyDiff 0).position, [])

/-- UI section: edge-triggered open/close flags (absent panels read as
closed) and the dialog/shop summary lines (the code emits no summary line
for the `interface` panel). -/
def uiSection (before after : BotWorldState) : UiDiff × List String :=
  let bi := (before.interface.map (fun p => p.isOpen)).getD false
  let ai := (after.interface.map (fun p => p.isOpen)).getD false
  let bs := (before.shop.map (fun p => p.isOpen)).getD false
  let as_ := (after.shop.map (fun p => p.isOpen)).getD false
  let u : UiDiff :=
    { dialogOpened := !before.dialog.isOpen && after.dialog.isOpen
      dialogClosed := before.dialog.isOpen && !after.dialog.isOpen
      interfaceOpened := !bi && ai
      interfaceClosed := bi && !ai
      shopOpened := !bs && as_
      shopClosed := bs && !as_ }
  (u,
   (if u.dialogOpened then ["Dialog opened"] else []) ++
   (if u.dialogClosed then ["Dialog closed"] else []) ++
   (if u.shopOpened then
      ["Shop opened: " ++ ((after.shop.map (fun p => p.title)).getD "undefined")]
    else []) ++
   (if u.shopClosed then ["Shop closed"] else []))

/-- One `Map.set` step of the NPC keying loop (key `index`, last value
wins, original insertion position kept). -/
def addNpc (acc : List NearbyNpc) (n : NearbyNpc) : List NearbyNpc :=
  if acc.any (fun m => m.index == n.index) then
    acc.map (fun m => if m.index == n.index then n else m)
  else
    acc ++ [n]

/-- `beforeNpcs` / `afterNpcs` as insertion-ordered key-deduplicated lists. -/
def npcMap (l : List NearbyNpc) : List NearbyNpc :=
  l.foldl addNpc []

/-- NPC section: `appeared` from the `after` loop (raw list order, checking
key presence in `before`), `disappeared`/`died` from the `beforeNpcs` map
loop, with the "died" summary lines. -/
def npcSection (before after : List NearbyNpc) : NpcDiff × List String :=
  let appeared := (after.filter
      (fun n => !(before.any (fun m => m.index == n.index)))).map
      (fun n => ({ name := n.name, index := n.index } : NpcRef))
  let gone := (npcMap before).filter
      (fun n => !(after.any (fun m => m.index == n.index)))
  let disappeared := gone.map (fun n => ({ name := n.name, index := n.index } : NpcRef))
  let died := (gone.filter (fun n => n.inCombat)).map
      (fun n => ({ name := n.name, index := n.index } : NpcRef))
  ({ appeared := appeared, disappeared := disappeared, died := died },
   (gone.filter (fun n => n.inCombat)).map (fun n => n.name ++ " died"))

/-- A character matched by the regex class `\w`. -/
def isWordChar (c : Char) : Bool :=
  c.isAlphanum || c == '_'

/-- One-pass simulation of `text.replace(/@\w+@/g, '')` (leftmost-match
semantics): `pend` holds the characters of a candidate marker opened by an
unmatched `@`. -/
def stripStep (st : List Char × Option (List Char)) (c : Char) :
    List Char × Option (List Char) :=
  match st.2 with
  | none =>
      if c == '@' then (st.1, some [c]) else (st.1 ++ [c], none)
  | some p =>
      if c == '@' then
        if p.length == 1 then
          -- "@@": no word char inside, the first '@' is literal, the second
          -- opens a new candidate
          (st.1 ++ p, some [c])
        else
          -- a full marker @\w+@ matched: drop it
          (st.1, none)
      else if isWordChar c then (st.1, some (p ++ [c]))
      else (st.1 ++ p ++ [c], none)

/-- `m.text.replace(/@\w+@/g, '')`: strip embedded formatting markers. -/
def stripFormatting (s : String) : String :=
  let st := s.data.foldl stripStep ([], none)
  ⟨st.1 ++ (st.2.getD [])⟩

/-- Message section: texts of game messages with `tick > before.tick`,
markers stripped. -/
def messageSection (before after : BotWorldState) : List String :=
  ((after.gameMessages.getD []).filter
    (fun m => before.tick < m.tick)).map (fun m => stripFormatting m.text)

/-- `computeStateDiff(before, after)`: the full structural diff, with the
summary list assembled in the code's push order. -/
def computeStateDiff (before after : BotWorldState) : StateDiff :=
  let inv := invSection before.inventory after.inventory
  let sk := skillSection before.skills after.skills
  let cb := combatSection before after
  let pos := positionSection before after
  let ui := uiSection before after
  let npc := npcSection before.nearbyNpcs after.nearbyNpcs
  { tick := { before := before.tick, after := after.tick,
              elapsed := after.tick - before.tick }
    inventory := inv.1
    skills := sk.1
    combat := cb.1
    position := pos.1
    ui := ui.1
    npcs := npc.1
    messages := messageSection before after
    summary := inv.2 ++ sk.2 ++ cb.2 ++ pos.2 ++ ui.2 ++ npc.2 }

/-! ## Task supervision engine data model

`TaskContext` (src/unnamed/part_000) and `TaskManager` (src/unnamed/part_001).
`Date.now()`, the current world snapshot and the world-state formatter are
summarized in an `Env` record passed to each operation. -/

/-- `TaskStatus['status']` / the context's live status union. -/
inductive CtxStatus where
  | running
  | paused
  | completed
  | failed
  | aborted
  deriving Repr, DecidableEq

/-- `TaskProgress['status']` union. -/
inductive ProgressStatus where
  | starting
  | in_progress
  | completed
  | failed
  | paused
  deriving Repr, DecidableEq

/-- `TaskProgress`: `{action, status, progress?, message?, data?}`.  The
optional numeric progress is `(current, total, unit?)`; the untyped `data`
payload is modelled as an opaque optional string. -/
structure TaskProgress where
  action : String
  status : ProgressStatus
  progress : Option (Int × Int × Option String)
  message : Option String
  data : Option String
  deriving Repr, DecidableEq

/-- `CheckpointResult`: `cont` embeds the TS field `continue` (a Lean
keyword). -/
structure CheckpointResult where
  cont : Bool
  newInstructions : Option String
  abort : Option Bool
  abortReason : Option String
  deriving Repr, DecidableEq

/-- `TaskStatus`: the point-in-time composite returned by
`TaskContext.getStatus`. -/
structure TaskStatus where
  taskId : String
  status : CtxStatus
  currentAction : String
  startTime : Int
  elapsedMs : Int
  checkpointCount : Nat
  lastCheckpointTime : Int
  stateDiff : StateDiff
  accumulatedDiff : StateDiff
  progressReports : List TaskProgress
  worldState : String
  error : Option String
  deriving Repr, DecidableEq

/-- The ambient runtime facts each operation reads: `Date.now()`, the
current snapshot (`sdk.getState()`, null when never observed) and its age.
`fmtWorld` stands for `formatWorldState` — modelled from the spec: the
formatter module is outside the engine (not under src/); the spec only
says `getStatus` carries "a formatted rendering of the live world state",
so the rendering is an arbitrary parameter. -/
structure Env where
  now : Int
  world : Option BotWorldState
  stateAge : Int
  fmtWorld : BotWorldState → Int → String

/-- The mutable fields of a `TaskContext`.  `monitoring` models whether the
`stateListener` subscription is live (non-null). -/
structure TaskCtx where
  taskId : String
  startTime : Int
  startState : Option BotWorldState
  lastCheckpointState : Option BotWorldState
  checkpointCount : Nat
  currentAction : String
  status : CtxStatus
  progressReports : List TaskProgress
  logs : List String
  lastProgressReport : Int
  abortReason : Option String
  monitoring : Bool
  deriving Repr, DecidableEq

/-- The `TaskContext` constructor: captures the initial snapshot as both the
start state and the last-checkpoint state, and subscribes to updates. -/
def TaskCtx.new (e : Env) (taskId : String) : TaskCtx :=
  { taskId := taskId
    startTime := e.now
    startState := e.world
    lastCheckpointState := e.world
    checkpointCount := 0
    currentAction := "initializing"
    status := CtxStatus.running
    progressReports := []
    logs := []
    lastProgressReport := 0
    abortReason := none
    monitoring := true }

/-- `getStateDiffFromStart()`: empty diff when either snapshot is missing. -/
def TaskCtx.getStateDiffFromStart (ctx : TaskCtx) (e : Env) : StateDiff :=
  match ctx.startState, e.world with
  | some s0, some s1 => computeStateDiff s0 s1
  | _, _ => createEmptyDiff 0

/-- `getStateDiffSinceLastCheckpoint()`. -/
def TaskCtx.getStateDiffSinceLastCheckpoint (ctx : TaskCtx) (e : Env) : StateDiff :=
  match ctx.lastCheckpointState, e.world with
  | some s0, some s1 => computeStateDiff s0 s1
  | _, _ => createEmptyDiff 0

/-- `getStatus()`: `progressReports.slice(-10)` is `drop (length - 10)`. -/
def TaskCtx.getStatus (ctx : TaskCtx) (e : Env) : TaskStatus :=
  { taskId := ctx.taskId
    status := ctx.status
    currentAction := ctx.currentAction
    startTime := ctx.startTime
    elapsedMs := e.now - ctx.startTime
    checkpointCount := ctx.checkpointCount
    lastCheckpointTime := ctx.lastProgressReport
    stateDiff := ctx.getStateDiffSinceLastCheckpoint e
    accumulatedDiff := ctx.getStateDiffFromStart e
    progressReports := ctx.progressReports.drop (ctx.progressReports.length - 10)
    worldState :=
      match e.world with
      | some s => e.fmtWorld s e.stateAge
      | none => "(no state)"
    error := ctx.abortReason }

/-- The argument of `reportProgress`: a `TaskProgress` whose `status`
defaults to `in_progress` when absent. -/
structure ProgressInput where
  action : String
  status : Option ProgressStatus
  progress : Option (Int × Int × Option String)
  message : Option String
  data : Option String
  deriving Repr, DecidableEq

/-- The `fullProgress` record built inside `reportProgress`. -/
def ProgressInput.full (p : ProgressInput) : TaskProgress :=
  { action := p.action
    status := p.status.getD ProgressStatus.in_progress
    progress := p.progress
    message := p.message
    data := p.data }

/-- Append a line to the captured log transcript (`log(...)`); the
transcript is append-only. -/
def TaskCtx.addLog (ctx : TaskCtx) (m : String) : TaskCtx :=
  { ctx with logs := ctx.logs ++ [m] }

/-- `reportProgress(progress)`: appends to the progress history, stamps
`lastProgressReport`, logs a mirrored line, and returns the full record
handed to the `onProgress` listener (`progress.message || ''` reads empty
for an absent message). -/
def TaskCtx.reportProgress (ctx : TaskCtx) (e : Env) (p : ProgressInput) :
    TaskCtx × TaskProgress :=
  let fp := p.full
  (({ ctx with
      progressReports := ctx.progressReports ++ [fp]
      lastProgressReport := e.now }).addLog
        ("[Progress] " ++ p.action ++ ": " ++ p.message.getD ""),
   fp)

/-- `setAction(action)`: records the action and emits a `starting` report. -/
def TaskCtx.setAction (ctx : TaskCtx) (e : Env) (a : String) :
    TaskCtx × TaskProgress :=
  ({ ctx with currentAction := a }).reportProgress e
    { action := a, status := some ProgressStatus.starting,
      progress := none, message := some ("Starting: " ++ a), data := none }

/-- `complete(result?)`: terminal transition plus a final `completed`
progress report. -/
def TaskCtx.complete (ctx : TaskCtx) (e : Env) (result : Option String) :
    TaskCtx × TaskProgress :=
  ({ ctx with status := CtxStatus.completed }).reportProgress e
    { action := ctx.currentAction, status := some ProgressStatus.completed,
      progress := none, message := some "Task completed", data := result }

/-- `fail(error)`: terminal transition plus a final `failed` progress
report; the error is retained as the status `error` field. -/
def TaskCtx.fail (ctx : TaskCtx) (e : Env) (err : String) :
    TaskCtx × TaskProgress :=
  ({ ctx with status := CtxStatus.failed, abortReason := some err }).reportProgress e
    { action := ctx.currentAction, status := some ProgressStatus.failed,
      progress := none, message := some err, data := none }

/-- `cleanup()`: unsubscribes from world-state notifications; safe to call
repeatedly. -/
def TaskCtx.cleanup (ctx : TaskCtx) : TaskCtx :=
  { ctx with monitoring := false }

/-- The log line written at the top of `checkpoint(reason)`. -/
def checkpointLogLine (count : Nat) (reason : String) : String :=
  "[Checkpoint " ++ toString count ++ "] " ++ reason

/-- JS `x || 'default'` on an optional string (absent and empty are falsy). -/
def jsOrDefault (o : Option String) (d : String) : String :=
  match o with
  | some s => if s == "" then d else s
  | none => d

/-- The trivial `{continue: true}` result. -/
def trivialContinue : CheckpointResult :=
  { cont := true, newInstructions := none, abort := none, abortReason := none }

/-- First half of `checkpoint(reason)`, up to the point where the external
handler is awaited: increments the counter, logs the reason, takes the
status snapshot (marked `paused` in the snapshot only) and then advances
the last-checkpoint snapshot pointer. -/
def TaskCtx.checkpointEnter (ctx : TaskCtx) (e : Env) (reason : String) :
    TaskStatus × TaskCtx :=
  let ctx := { ctx with checkpointCount := ctx.checkpointCount + 1 }
  let ctx := ctx.addLog (checkpointLogLine ctx.checkpointCount reason)
  let status := { ctx.getStatus e with status := CtxStatus.paused }
  (status, { ctx with lastCheckpointState := e.world })

/-- Second half of `checkpoint(reason)`, applied to the handler's result:
an abort result latches the liveness flag to `aborted` with the abort
reason; otherwise truthy `newInstructions` are logged.  The result is
returned to the task body unchanged. -/
def TaskCtx.checkpointSettle (ctx : TaskCtx) (r : CheckpointResult) :
    CheckpointResult × TaskCtx :=
  if r.abort.getD false then
    (r, { ctx with
          status := CtxStatus.aborted
          abortReason := some (jsOrDefault r.abortReason "Aborted by supervisor") })
  else if (r.newInstructions.getD "") == "" then (r, ctx)
  else (r, ctx.addLog ("[New Instructions] " ++ r.newInstructions.getD ""))

/-- `checkpoint(reason)` against an abstract external handler (the
`onCheckpoint` option), whose asynchronous call either produces a result or
raises: a raising handler is caught, logged as `[Checkpoint Error]`, and
degraded to `{continue: true}`; no handler means an immediate trivial
continue. -/
def TaskCtx.checkpointWith (ctx : TaskCtx) (e : Env) (reason : String)
    (handler : Option (TaskStatus → Except String CheckpointResult)) :
    CheckpointResult × TaskCtx :=
  let st := ctx.checkpointEnter e reason
  match handler with
  | some h =>
      match h st.1 with
      | Except.ok r => st.2.checkpointSettle r
      | Except.error msg => (trivialContinue, st.2.addLog ("[Checkpoint Error] " ++ msg))
  | none => (trivialContinue, st.2)

/-! ## Task manager and composed system (src/unnamed/part_001, plus the
run_task invocation harness of src/mcp/server.ts)

The task body is an opaque procedure that either calls `checkpoint` (with a
continuation awaiting the result), returns, or raises.  A resolved
checkpoint promise is a scheduled resumption on an explicit queue (the JS
microtask queue): `continueTask`/`abortTask` enqueue the resolution and the
suspended continuation runs afterwards. -/

/-- The opaque task body as the engine observes it. -/
inductive Body where
  | checkpoint (reason : String) (k : CheckpointResult → Body)
  | ret (result : Option String)
  | raise (msg : String)

/-- `RunningTask['status']` union (`paused` is declared but never
assigned by the manager). -/
inductive MgrStatus where
  | running
  | paused
  | awaiting_feedback
  | completed
  | failed
  | aborted
  deriving Repr, DecidableEq

/-- The pending-checkpoint record `{reason, status, resolve, reject}`: the
resolver handle is the suspended continuation `k` (resolving with `r`
schedules `k r`); `reject` is never invoked by the engine. -/
structure PendingCheckpoint where
  reason : String
  status : TaskStatus
  k : CheckpointResult → Body

/-- `RunningTask`. -/
structure MgrTask where
  id : String
  botName : String
  ctx : TaskCtx
  startTime : Int
  code : String
  description : String
  status : MgrStatus
  lastUpdate : Int
  pendingCheckpoint : Option PendingCheckpoint
  progressHistory : List TaskProgress
  logs : List String

/-- A promise resolution scheduled but not yet run. -/
structure Scheduled where
  taskId : String
  k : CheckpointResult → Body
  result : CheckpointResult

/-- The whole system: the manager's task table (JS `Map`: insertion
ordered, unique generated keys), the id counter, and the queue of
scheduled checkpoint resolutions. -/
structure Sys where
  tasks : List (String × MgrTask)
  taskCounter : Nat
  queue : List Scheduled

/-- The empty manager (`new TaskManager()`). -/
def Sys.empty : Sys :=
  { tasks := [], taskCounter := 0, queue := [] }

/-- `this.tasks.get(taskId)`. -/
def Sys.findTask (s : Sys) (tid : String) : Option MgrTask :=
  (s.tasks.find? (fun p => p.1 == tid)).map Prod.snd

/-- Update the record stored under a task id in place. -/
def Sys.updateTask (s : Sys) (tid : String) (f : MgrTask → MgrTask) : Sys :=
  { s with tasks := s.tasks.map (fun p => if p.1 == tid then (p.1, f p.2) else p) }

/-- Digit character of base-36 rendering (`Number.prototype.toString(36)`,
lowercase). -/
def base36Digit (n : Nat) : Char :=
  if n < 10 then Char.ofNat (48 + n) else Char.ofNat (87 + n)

/-- Base-36 rendering, fuelled by the number itself. -/
def toBase36Aux : Nat → Nat → List Char
  | 0, _ => []
  | fuel + 1, n =>
      if n < 36 then [base36Digit n]
      else toBase36Aux fuel (n / 36) ++ [base36Digit (n % 36)]

/-- `n.toString(36)`. -/
def toBase36 (n : Nat) : String :=
  ⟨toBase36Aux (n + 1) n⟩

/-- `generateTaskId()` with the already-incremented counter. -/
def generateTaskId (counter : Nat) (now : Int) : String :=
  "task-" ++ toString counter ++ "-" ++ toBase36 now.toNat

/-- `startTask(...)`: allocates the id, constructs the wired context and
registers the record (status `running`) before any execution begins. -/
def Sys.startTask (s : Sys) (e : Env) (botName code description : String) :
    String × TaskStatus × Sys :=
  let counter := s.taskCounter + 1
  let tid := generateTaskId counter e.now
  let ctx := TaskCtx.new e tid
  let task : MgrTask :=
    { id := tid, botName := botName, ctx := ctx, startTime := e.now,
      code := code, description := description, status := MgrStatus.running,
      lastUpdate := e.now, pendingCheckpoint := none,
      progressHistory := [], logs := [] }
  (tid, ctx.getStatus e,
   { s with tasks := s.tasks ++ [(tid, task)], taskCounter := counter })

/-- `completeTask(taskId, result?)`: unknown ids are ignored; otherwise the
status flips to `completed`, the context emits its final report (mirrored
into the progress history by the `onProgress` wiring, which also stamps
`lastUpdate`), and the context is cleaned up. -/
def Sys.completeTask (s : Sys) (e : Env) (tid : String) (result : Option String) : Sys :=
  match s.findTask tid with
  | none => s
  | some t =>
      let (ctx1, fp) := t.ctx.complete e result
      s.updateTask tid (fun u =>
        { u with
          status := MgrStatus.completed
          lastUpdate := e.now
          ctx := ctx1.cleanup
          progressHistory := u.progressHistory ++ [fp] })

/-- `failTask(taskId, error)`. -/
def Sys.failTask (s : Sys) (e : Env) (tid : String) (err : String) : Sys :=
  match s.findTask tid with
  | none => s
  | some t =>
      let (ctx1, fp) := t.ctx.fail e err
      s.updateTask tid (fun u =>
        { u with
          status := MgrStatus.failed
          lastUpdate := e.now
          ctx := ctx1.cleanup
          progressHistory := u.progressHistory ++ [fp] })

/-- Run the task body until it suspends at a checkpoint, returns, or
raises.  A `checkpoint` performs the context's checkpoint entry and then
`handleCheckpoint`: the task flips to `awaiting_feedback` and the
pending-checkpoint record stores the *status snapshot's current action* as
its `reason` (the `reason` argument of `checkpoint` is logged by the
context but never transmitted to the manager).  A returning body is
classified by the harness via `completeTask`; a raising body via
`failTask` unless the task is awaiting feedback.  (A checkpoint or outcome
for a task id absent from the table is not reachable in the modelled
scenarios: the registry registers the record before execution begins.) -/
def Sys.runBody (s : Sys) (e : Env) (tid : String) : Body → Sys
  | Body.checkpoint reason k =>
      match s.findTask tid with
      | none => s
      | some t =>
          let (snap, ctx1) := t.ctx.checkpointEnter e reason
          s.updateTask tid (fun u =>
            { u with
              ctx := ctx1
              status := MgrStatus.awaiting_feedback
              lastUpdate := e.now
              pendingCheckpoint := some
                { reason := snap.currentAction, status := snap, k := k } })
  | Body.ret result => s.completeTask e tid result
  | Body.raise msg =>
      match s.findTask tid with
      | none => s
      | some t =>
          if t.status == MgrStatus.awaiting_feedback then s
          else s.failTask e tid msg

/-- Deliver a resolved checkpoint to its suspended continuation: the
context settles the result (latching an abort), then the body continues
from right after the checkpoint call. -/
def Sys.resume (s : Sys) (e : Env) (sch : Scheduled) : Sys :=
  match s.findTask sch.taskId with
  | none => s
  | some t =>
      let (r, ctx1) := t.ctx.checkpointSettle sch.result
      let s := s.updateTask sch.taskId (fun u => { u with ctx := ctx1 })
      s.runBody e sch.taskId (sch.k r)

/-- Run the next scheduled promise resolution, if any. -/
def Sys.deliverNext (s : Sys) (e : Env) : Sys :=
  match s.queue with
  | [] => s
  | sch :: rest => Sys.resume { s with queue := rest } e sch

/-- `continueTask(taskId, instructions?)`: throws (modelled as
`Except.error`, state unchanged) for an unknown id or when no
pending-checkpoint record exists; otherwise resolves the record with
`{continue: true, newInstructions: instructions}` (scheduling the
resumption), clears it, and flips the status back to `running`. -/
def Sys.continueTask (s : Sys) (e : Env) (tid : String)
    (instructions : Option String) : Except String CheckpointResult × Sys :=
  match s.findTask tid with
  | none => (Except.error ("Task " ++ tid ++ " not found"), s)
  | some t =>
      match t.pendingCheckpoint with
      | none => (Except.error ("Task " ++ tid ++ " is not paused at a checkpoint"), s)
      | some p =>
          let result : CheckpointResult :=
            { cont := true, newInstructions := instructions,
              abort := none, abortReason := none }
          let s :=
            { s with queue := s.queue ++
                [({ taskId := tid, k := p.k, result := result } : Scheduled)] }
          (Except.ok result,
           s.updateTask tid (fun u =>
             { u with
               pendingCheckpoint := none
               status := MgrStatus.running
               lastUpdate := e.now }))

/-- The negative result `abortTask` resolves a pending checkpoint with. -/
def abortResolution (reason : Option String) : CheckpointResult :=
  { cont := false, newInstructions := none, abort := some true,
    abortReason := some (jsOrDefault reason "Task aborted by user") }

/-- `abortTask(taskId, reason?)`: throws for an unknown id; otherwise sets
the status to `aborted`, resolves any pending checkpoint with the negative
result (scheduling the resumption) and clears it, and cleans up the
context's monitoring subscription. -/
def Sys.abortTask (s : Sys) (e : Env) (tid : String) (reason : Option String) :
    Except String Unit × Sys :=
  match s.findTask tid with
  | none => (Except.error ("Task " ++ tid ++ " not found"), s)
  | some t =>
      let s := s.updateTask tid (fun u =>
        { u with status := MgrStatus.aborted, lastUpdate := e.now })
      let s :=
        match t.pendingCheckpoint with
        | some p =>
            ({ s with queue := s.queue ++
                [({ taskId := tid, k := p.k, result := abortResolution reason } : Scheduled)]
             }).updateTask tid (fun u => { u with pendingCheckpoint := none })
        | none => s
      (Except.ok (), s.updateTask tid (fun u => { u with ctx := u.ctx.cleanup }))

/-- The eviction test of `cleanup(maxAgeMs)` (true = keep): a task is
evicted exactly when it is older than the retention window and neither
`running` nor `awaiting_feedback`. -/
def keepTask (now maxAgeMs : Int) (t : MgrTask) : Bool :=
  !(decide (maxAgeMs < now - t.lastUpdate) &&
    !(t.status == MgrStatus.running) &&
    !(t.status == MgrStatus.awaiting_feedback))

/-- `cleanup(maxAgeMs)`: evicts stale terminal tasks (running their
contexts' `cleanup()`, whose records are dropped) and returns how many were
evicted. -/
def Sys.cleanupTasks (s : Sys) (now maxAgeMs : Int) : Sys × Nat :=
  let kept := s.tasks.filter (fun p => keepTask now maxAgeMs p.2)
  ({ s with tasks := kept }, s.tasks.length - kept.length)

/-! ## Observable projections of the system state -/

/-- The manager-side status of a task. -/
def Sys.taskStatus? (s : Sys) (tid : String) : Option MgrStatus :=
  (s.findTask tid).map (fun t => t.status)

/-- The `reason` field of a task's pending-checkpoint record, when
suspended. -/
def Sys.pendingReason? (s : Sys) (tid : String) : Option String :=
  (s.findTask tid).bind (fun t => t.pendingCheckpoint.map (fun p => p.reason))

/-- Whether a pending-checkpoint record exists. -/
def Sys.hasPending (s : Sys) (tid : String) : Bool :=
  ((s.findTask tid).map (fun t => t.pendingCheckpoint.isSome)).getD false

/-- The task context's captured log transcript. -/
def Sys.ctxLogs (s : Sys) (tid : String) : List String :=
  ((s.findTask tid).map (fun t => t.ctx.logs)).getD []

/-- The task context's checkpoint counter. -/
def Sys.ctxCheckpoints (s : Sys) (tid : String) : Nat :=
  ((s.findTask tid).map (fun t => t.ctx.checkpointCount)).getD 0

/-- The statuses of the progress reports accumulated on the task record. -/
def Sys.historyStatuses (s : Sys) (tid : String) : List ProgressStatus :=
  ((s.findTask tid).map (fun t => t.progressHistory.map (fun p => p.status))).getD []

/-! ## Concrete scenarios used by the temporal claims -/

/-- A fixed environment for concrete runs: no world snapshot observed, a
constant clock, and a trivial rendering for the parameterized formatter. -/
def fixedEnv : Env :=
  { now := 1000, world := none, stateAge := 0, fmtWorld := fun _ _ => "" }

/-- The body of the resume-order scenario: `checkpoint("A")` then
`checkpoint("B")` then complete, ignoring the checkpoint results. -/
def abBody : Body :=
  Body.checkpoint "A" (fun _ => Body.checkpoint "B" (fun _ => Body.ret none))

/-- Start of the resume-order scenario. -/
def abStart : String × TaskStatus × Sys :=
  Sys.empty.startTask fixedEnv "bot" "code" "two checkpoints"

/-- The generated task id of the scenario. -/
def abId : String := abStart.1

/-- Scenario state once the body has run to its first suspension (at
`"A"`). -/
def abSuspendedA : Sys := abStart.2.2.runBody fixedEnv abId abBody

/-- Scenario state after one `continueTask` call (resolution scheduled). -/
def abContinued : Sys := (abSuspendedA.continueTask fixedEnv abId none).2

/-- Scenario state after the scheduled resolution runs: the body resumes
after the first checkpoint and suspends at the second (`"B"`). -/
def abSuspendedB : Sys := abContinued.deliverNext fixedEnv

/-- The body of the abort-while-paused scenario: one checkpoint, then the
body returns normally (it never polls the abort flag). -/
def abortScenBody : Body :=
  Body.checkpoint "halfway" (fun _ => Body.ret none)

/-- Start of the abort-while-paused scenario. -/
def abortScenStart : String × TaskStatus × Sys :=
  Sys.empty.startTask fixedEnv "bot" "code" "abort scenario"

/-- Its task id. -/
def abortScenId : String := abortScenStart.1

/-- Suspended at the checkpoint, awaiting feedback. -/
def abortScenSuspended : Sys := abortScenStart.2.2.runBody fixedEnv abortScenId abortScenBody

/-- After `abortTask` (status `aborted`, negative resolution scheduled). -/
def abortScenAborted : Sys := (abortScenSuspended.abortTask fixedEnv abortScenId none).2

/-- After the scheduled resolution runs: the body observes the abort result,
returns, and the harness calls `completeTask`. -/
def abortScenFinal : Sys := abortScenAborted.deliverNext fixedEnv

/-! ## Concrete snapshots used by the differ claims -/

/-- A minimal snapshot: everything empty or absent at tick 0. -/
def baseSnap : BotWorldState :=
  { tick := 0, inventory := [], skills := [], player := none,
    combatEvents := none, dialog := { isOpen := false }, interface := none,
    shop := none, nearbyNpcs := [], gameMessages := none }

/-- Snapshot carrying a combat event and a game message stamped *after* its
own tick. -/
def futureEventSnap : BotWorldState :=
  { baseSnap with
    combatEvents := some [{ tick := 1, type := "damage_taken", damage := 3 }],
    gameMessages := some [{ tick := 1, text := "hi" }] }

/-- Snapshot whose skills list holds two entries with the same name. -/
def dupSkillSnap : BotWorldState :=
  { baseSnap with skills :=
      [{ name := "Attack", experience := 10, level := 1, baseLevel := 1 },
       { name := "Attack", experience := 5, level := 1, baseLevel := 1 }] }

/-- Before-snapshot of the level-up-without-xp scenario. -/
def lvlBefore : BotWorldState :=
  { baseSnap with skills :=
      [{ name := "Attack", experience := 100, level := 5, baseLevel := 5 }] }

/-- After-snapshot: `baseLevel` rose 5 → 6 while experience is unchanged. -/
def lvlAfter : BotWorldState :=
  { baseSnap with skills :=
      [{ name := "Attack", experience := 100, level := 6, baseLevel := 6 }] }

/-- Inventory-merge before-snapshot: two stacks of item 995. -/
def mergeBefore : BotWorldState :=
  { baseSnap with inventory :=
      [{ id := 995, name := "Coins", count := 100 },
       { id := 995, name := "Coins", count := 50 }] }

/-- Inventory-merge after-snapshot: one stack of 200. -/
def mergeAfter : BotWorldState :=
  { baseSnap with inventory := [{ id := 995, name := "Coins", count := 200 }] }

/-- Player at the origin. -/
def posBefore : BotWorldState := { baseSnap with player := some { worldX := 0, worldZ := 0 } }

/-- Player at (1, 1): true distance √2, rounded to 1. -/
def posAfter : BotWorldState := { baseSnap with player := some { worldX := 1, worldZ := 1 } }

/-- Well-timedness of a snapshot: its combat events and game messages are
stamped no later than its own tick. -/
def BotWorldState.wellTimed (s : BotWorldState) : Prop :=
  (∀ ev ∈ s.combatEvents.getD [], ev.tick ≤ s.tick) ∧
  (∀ m ∈ s.gameMessages.getD [], m.tick ≤ s.tick)

/-- Squared Euclidean distance between two player positions (the quantity
`dx*dx + dz*dz` the differ takes the square root of). -/
def sqDist (pb pa : PlayerPos) : Int :=
  (pa.worldX - pb.worldX) * (pa.worldX - pb.worldX) +
  (pa.worldZ - pb.worldZ) * (pa.worldZ - pb.worldZ)

/-- Player at (3, 4): distance exactly 5 from the origin. -/
def posAfterFar : BotWorldState :=
  { baseSnap with player := some { worldX := 3, worldZ := 4 } }

/-- A populated, well-timed snapshot with distinct skill names. -/
def richSnap : BotWorldState :=
  { tick := 100
    inventory := [{ id := 1, name := "Axe", count := 1 },
                  { id := 995, name := "Coins", count := 30 },
                  { id := 995, name := "Coins", count := 12 }]
    skills := [{ name := "Hitpoints", experience := 1200, level := 10, baseLevel := 10 },
               { name := "Attack", experience := 88, level := 5, baseLevel := 5 }]
    player := some { worldX := 3204, worldZ := 3229 }
    combatEvents := some [{ tick := 99, type := "damage_taken", damage := 2 }]
    dialog := { isOpen := true }
    interface := some { isOpen := true }
    shop := some { isOpen := true, title := "General Store" }
    nearbyNpcs := [{ index := 7, name := "Goblin", inCombat := true },
                   { index := 9, name := "Cow", inCombat := false }]
    gameMessages := some [{ tick := 98, text := "Welcome" }] }

/-- Before-snapshot of a plain skill gain. -/
def mineBefore : BotWorldState :=
  { baseSnap with skills :=
      [{ name := "Mining", experience := 10, level := 1, baseLevel := 1 }] }

/-- After-snapshot: experience and level both rose. -/
def mineAfter : BotWorldState :=
  { baseSnap with skills :=
      [{ name := "Mining", experience := 30, level := 2, baseLevel := 2 }] }

/-- A terminal (completed) task record whose last update lies in the past. -/
def staleTask : MgrTask :=
  { id := "t1", botName := "bot", ctx := TaskCtx.new fixedEnv "t1",
    startTime := 0, code := "", description := "done long ago",
    status := MgrStatus.completed, lastUpdate := 0, pendingCheckpoint := none,
    progressHistory := [], logs := [] }

/-- An equally old task record that is still running. -/
def liveTask : MgrTask :=
  { staleTask with id := "t2", status := MgrStatus.running }

/-- A manager holding one stale terminal task and one old running task. -/
def cleanupScenario : Sys :=
  { tasks := [("t1", staleTask), ("t2", liveTask)], taskCounter := 2, queue := [] }

/-! ## Helper lemmas -/

/-- A left fold whose step fixes every state is the identity. -/
theorem foldl_fixed {α β : Type} (f : β → α → β) (l : List α) (init : β)
    (h : ∀ x ∈ l, ∀ st, f st x = st) : l.foldl f init = init := by
  induction l generalizing init with
  | nil => rfl
  | cons a t ih =>
      rw [List.foldl_cons, h a (List.mem_cons_self a t)]
      exact ih init (fun x hx st => h x (List.mem_cons_of_mem a hx) st)

/-- `find?` by a key that is unique in the list returns the member itself. -/
theorem find?_key_self {α β : Type} [BEq β] [LawfulBEq β] (key : α → β) :
    ∀ (l : List α) (g : α), (l.map key).Nodup → g ∈ l →
      l.find? (fun x => key x == key g) = some g := by
  intro l
  induction l with
  | nil => intro g _ hg; cases hg
  | cons a t ih =>
      intro g hnd hg
      by_cases hk : key a = key g
      · have hag : a = g := by
          rcases List.mem_cons.mp hg with h | h
          · exact h.symm
          · exfalso
            have : key g ∈ t.map key := List.mem_map_of_mem key h
            rw [← hk] at this
            exact (List.nodup_cons.mp (by simpa using hnd)).1 this
        rw [hag]
        exact List.find?_cons_of_pos t (by simp)
      · have hgt : g ∈ t := by
          rcases List.mem_cons.mp hg with h | h
          · exact absurd (congrArg key h.symm) hk
          · exact h
        rw [List.find?_cons_of_neg t (by simpa using hk)]
        exact ih g (List.nodup_cons.mp (by simpa using hnd)).2 hgt

/-- `find?` over the key-preserving in-place update of a keyed list. -/
theorem find?_update_keyed (f : MgrTask → MgrTask) (tid tid' : String) :
    ∀ l : List (String × MgrTask),
      ((l.map (fun p => if p.1 == tid then (p.1, f p.2) else p)).find?
          (fun p => p.1 == tid')) =
        if tid' = tid
        then (l.find? (fun p => p.1 == tid')).map (fun p => (p.1, f p.2))
        else l.find? (fun p => p.1 == tid') := by
  intro l
  induction l with
  | nil => by_cases h : tid' = tid <;> simp [h]
  | cons a t ih =>
      have hfst : (if a.1 == tid then (a.1, f a.2) else a).1 = a.1 := by
        by_cases h : a.1 == tid <;> simp [h]
      by_cases h1 : a.1 = tid'
      · rw [List.map_cons, List.find?_cons_of_pos _ (by rw [hfst]; simp [h1]),
            List.find?_cons_of_pos _ (by simp [h1])]
        by_cases h2 : tid' = tid
        · simp [if_pos h2, h1, h2]
        · have : ¬(a.1 == tid) = true := by simp [h1, h2]
          simp [if_neg h2, this]
      · rw [List.map_cons, List.find?_cons_of_neg _ (by rw [hfst]; simp [h1]),
            List.find?_cons_of_neg _ (by simp [h1]), ih]

/-- `findTask` after `updateTask`: the targeted id sees the update, any
other id is untouched. -/
theorem findTask_updateTask (s : Sys) (f : MgrTask → MgrTask) (tid tid' : String) :
    (s.updateTask tid f).findTask tid' =
      if tid' = tid then (s.findTask tid').map f else s.findTask tid' := by
  unfold Sys.findTask Sys.updateTask
  rw [find?_update_keyed]
  by_cases h : tid' = tid
  · simp [h, Option.map_map]
    rfl
  · simp [h]

/-! ## C10 — bounded status tail, append-only history -/

/-- C10: `getStatus` returns at most the 10 most recent progress reports —
a suffix of the full history of length at most 10 — while `reportProgress`
only ever appends to the retained history (no truncation). -/
theorem getStatus_progress_tail (ctx : TaskCtx) (e : Env) (p : ProgressInput) :
    (ctx.getStatus e).progressReports.length ≤ 10 ∧
    (ctx.getStatus e).progressReports <:+ ctx.progressReports ∧
    ((ctx.reportProgress e p).1).progressReports = ctx.progressReports ++ [p.full] := by
  refine ⟨?_, ?_, rfl⟩
  · simp only [TaskCtx.getStatus, List.length_drop]
    omega
  · exact List.drop_suffix _ _

/-! ## C8 — a raising checkpoint handler degrades to continue -/

/-- C8: when the external checkpoint handler raises, the exception is
caught inside `checkpoint`: the call returns `{continue: true}`, the error
is appended to the log right after the checkpoint line, the liveness status
is untouched, and no exception reaches the task body (the operation is a
total function returning the trivial-continue result). -/
theorem checkpoint_handler_error (ctx : TaskCtx) (e : Env) (reason msg : String)
    (h : TaskStatus → Except String CheckpointResult)
    (hh : ∀ st, h st = Except.error msg) :
    (ctx.checkpointWith e reason (some h)).1 = trivialContinue ∧
    trivialContinue.cont = true ∧
    ((ctx.checkpointWith e reason (some h)).2).logs =
      ctx.logs ++ [checkpointLogLine (ctx.checkpointCount + 1) reason,
                   "[Checkpoint Error] " ++ msg] ∧
    ((ctx.checkpointWith e reason (some h)).2).status = ctx.status := by
  simp [TaskCtx.checkpointWith, hh, TaskCtx.checkpointEnter, TaskCtx.addLog,
        trivialContinue]

/-- Witness for C8 at a concrete context and always-raising handler. -/
theorem checkpoint_handler_error_witness :
    ((TaskCtx.new fixedEnv "w").checkpointWith fixedEnv "pause here"
        (some (fun _ => Except.error "boom"))).1 = trivialContinue ∧
    ((TaskCtx.new fixedEnv "w").checkpointWith fixedEnv "pause here"
        (some (fun _ => Except.error "boom"))).2.logs =
      (TaskCtx.new fixedEnv "w").logs ++
        [checkpointLogLine 1 "pause here", "[Checkpoint Error] " ++ "boom"] :=
  ⟨(checkpoint_handler_error (TaskCtx.new fixedEnv "w") fixedEnv "pause here" "boom"
      (fun _ => Except.error "boom") (fun _ => rfl)).1,
   (checkpoint_handler_error (TaskCtx.new fixedEnv "w") fixedEnv "pause here" "boom"
      (fun _ => Except.error "boom") (fun _ => rfl)).2.2.1⟩

/-! ## C1 — checkpoint resume order -/

/-- C1 (amended): starting the task whose body performs `checkpoint("A")`
then `checkpoint("B")` then completes — after suspension at the first
checkpoint, a single `continueTask` (plus delivery of the scheduled
resolution) resumes the body to the second checkpoint: the checkpoint
counter reaches exactly 2 with the reasons logged strictly in order (the
first is never logged again), the task pauses in `awaiting_feedback` with
its pending record's `reason` equal to the task's current action
(`"initializing"` — the checkpoint `reason` argument is not transmitted to
the manager), the task is not completed before the second checkpoint is
resolved, and resolving it then completes the task. -/
theorem checkpoint_resume_order :
    abSuspendedA.taskStatus? abId = some MgrStatus.awaiting_feedback ∧
    abSuspendedA.ctxLogs abId = [checkpointLogLine 1 "A"] ∧
    abSuspendedA.ctxCheckpoints abId = 1 ∧
    abSuspendedB.taskStatus? abId = some MgrStatus.awaiting_feedback ∧
    abSuspendedB.ctxCheckpoints abId = 2 ∧
    abSuspendedB.ctxLogs abId = [checkpointLogLine 1 "A", checkpointLogLine 2 "B"] ∧
    abSuspendedB.pendingReason? abId = some "initializing" ∧
    abSuspendedB.historyStatuses abId = [] ∧
    (((abSuspendedB.continueTask fixedEnv abId none).2).deliverNext fixedEnv).taskStatus?
        abId = some MgrStatus.completed :=
  ⟨rfl, rfl, rfl, rfl, rfl, rfl, rfl, rfl, rfl⟩

/-- Counterexample to C1 as stated: at the second observable pause the
pending-checkpoint record's `reason` is the task's current action
`"initializing"`, not the `"B"` argument of the second `checkpoint` call
(`handleCheckpoint` stores `status.currentAction`; the reason argument
never reaches the manager). -/
theorem checkpoint_reason_is_current_action :
    abSuspendedB.ctxCheckpoints abId = 2 ∧
    abSuspendedB.taskStatus? abId = some MgrStatus.awaiting_feedback ∧
    abSuspendedB.pendingReason? abId = some "initializing" ∧
    abSuspendedB.pendingReason? abId ≠ some "B" :=
  ⟨rfl, rfl, rfl, by decide⟩

/-! ## C2 — continueTask contract -/

/-- C2: `continueTask` fails (value-level error, whole system state
unchanged) for an unknown id or when no pending-checkpoint record exists;
on success it returns `{continue: true, newInstructions: instructions}`,
schedules exactly that result for the stored resolver, clears the pending
record, flips the status back to `running`, and touches no other task. -/
theorem continueTask_contract (s : Sys) (e : Env) (tid : String)
    (instructions : Option String) :
    (s.findTask tid = none →
      s.continueTask e tid instructions =
        (Except.error ("Task " ++ tid ++ " not found"), s)) ∧
    (∀ t, s.findTask tid = some t → t.pendingCheckpoint = none →
      s.continueTask e tid instructions =
        (Except.error ("Task " ++ tid ++ " is not paused at a checkpoint"), s)) ∧
    (∀ t p, s.findTask tid = some t → t.pendingCheckpoint = some p →
      (s.continueTask e tid instructions).1 =
        Except.ok { cont := true, newInstructions := instructions,
                    abort := none, abortReason := none } ∧
      ((s.continueTask e tid instructions).2).findTask tid =
        some { t with
               pendingCheckpoint := none
               status := MgrStatus.running
               lastUpdate := e.now } ∧
      ((s.continueTask e tid instructions).2).queue =
        s.queue ++ [{ taskId := tid
                      k := p.k
                      result := { cont := true, newInstructions := instructions,
                                  abort := none, abortReason := none } }] ∧
      (∀ tid', tid' ≠ tid →
        ((s.continueTask e tid instructions).2).findTask tid' = s.findTask tid')) := by
  refine ⟨?_, ?_, ?_⟩
  · intro hf
    simp [Sys.continueTask, hf]
  · intro t hf hp
    simp [Sys.continueTask, hf, hp]
  · intro t p hf hp
    refine ⟨?_, ?_, ?_, ?_⟩
    · simp [Sys.continueTask, hf, hp]
    · simp only [Sys.continueTask, hf, hp]
      rw [findTask_updateTask]
      simp only [if_pos rfl]
      have hq : (({ s with queue := s.queue ++
          [({ taskId := tid, k := p.k, result :=
              { cont := true, newInstructions := instructions,
                abort := none, abortReason := none } } : Scheduled)] } : Sys)).findTask tid
          = s.findTask tid := rfl
      rw [hq, hf]
      rfl
    · simp only [Sys.continueTask, hf, hp]
      rfl
    · intro tid' hne
      simp only [Sys.continueTask, hf, hp]
      rw [findTask_updateTask]
      simp only [if_neg hne]
      rfl

/-- Witness for C2 at the concrete suspended scenario state. -/
theorem continueTask_contract_witness :
    (abSuspendedA.continueTask fixedEnv abId none).1 =
      Except.ok { cont := true, newInstructions := none,
                  abort := none, abortReason := none } :=
  ((continueTask_contract abSuspendedA fixedEnv abId none).2.2 _ _ rfl rfl).1

/-! ## C3 — abort while paused -/

/-- C3 (amended): for every task that is suspended with a pending
checkpoint, `abortTask` resolves the record with the negative result
`{continue: false, abort: true}` (scheduling it for the stored resolver),
clears the record, sets the task's status to `aborted` and releases the
context's monitoring subscription.  The status is *not* guaranteed final:
if the resumed body later returns or raises, the harness's
`completeTask`/`failTask` can still overwrite it and emit a
completed/failed report (see the counterexample). -/
theorem abortTask_contract (s : Sys) (e : Env) (tid : String)
    (reason : Option String) (t : MgrTask) (p : PendingCheckpoint)
    (hf : s.findTask tid = some t) (hp : t.pendingCheckpoint = some p) :
    (s.abortTask e tid reason).1 = Except.ok () ∧
    ((s.abortTask e tid reason).2).findTask tid =
      some { t with
             status := MgrStatus.aborted
             lastUpdate := e.now
             pendingCheckpoint := none
             ctx := t.ctx.cleanup } ∧
    ((s.abortTask e tid reason).2).queue =
      s.queue ++ [{ taskId := tid, k := p.k, result := abortResolution reason }] ∧
    (abortResolution reason).cont = false ∧
    (abortResolution reason).abort = some true := by
  refine ⟨?_, ?_, ?_, rfl, rfl⟩
  · simp [Sys.abortTask, hf, hp]
  · simp only [Sys.abortTask, hf, hp]
    rw [findTask_updateTask]
    simp only [if_pos rfl]
    rw [findTask_updateTask]
    simp only [if_pos rfl]
    have hq : ∀ (s' : Sys) (q : List Scheduled),
        (({ s' with queue := q } : Sys)).findTask tid = s'.findTask tid :=
      fun _ _ => rfl
    rw [hq, findTask_updateTask]
    simp only [if_pos rfl]
    rw [hf]
    rfl
  · simp only [Sys.abortTask, hf, hp]
    rfl

/-- Witness for C3 at the concrete suspended scenario state. -/
theorem abortTask_contract_witness :
    (abortScenSuspended.abortTask fixedEnv abortScenId none).1 = Except.ok () :=
  (abortTask_contract abortScenSuspended fixedEnv abortScenId none _ _ rfl rfl).1

/-- Counterexample to C3 as stated: after aborting the suspended task the
status is `aborted` with the pending record cleared, but once the scheduled
negative resolution is delivered the body returns normally and the harness
calls `completeTask`, which overwrites the final status to `completed` and
emits a `completed` progress report for the aborted task. -/
theorem abort_then_complete_overwrites :
    Sys.taskStatus? abortScenAborted abortScenId = some MgrStatus.aborted ∧
    abortScenAborted.hasPending abortScenId = false ∧
    Sys.taskStatus? abortScenFinal abortScenId = some MgrStatus.completed ∧
    abortScenFinal.historyStatuses abortScenId = [ProgressStatus.completed] :=
  ⟨rfl, rfl, rfl, rfl⟩

/-! ## C9 — cleanup eviction -/

/-- C9: `cleanup(maxAge)` keeps exactly the tasks that are `running`,
`awaiting_feedback`, or within the retention window: a task record survives
iff it was present and not (older than `maxAge` and terminal); a `running`
or `awaiting_feedback` task is never evicted regardless of age; and running
cleanup again on the already-cleaned state is a no-op that evicts nothing
(so a second call targeting an already-evicted task does nothing and raises
no error). -/
theorem cleanup_contract (s : Sys) (now maxAge : Int) (tid : String) (t : MgrTask) :
    ((tid, t) ∈ ((s.cleanupTasks now maxAge).1).tasks ↔
      (tid, t) ∈ s.tasks ∧
      ¬(maxAge < now - t.lastUpdate ∧ t.status ≠ MgrStatus.running ∧
        t.status ≠ MgrStatus.awaiting_feedback)) ∧
    ((tid, t) ∈ s.tasks →
      (t.status = MgrStatus.running ∨ t.status = MgrStatus.awaiting_feedback) →
      (tid, t) ∈ ((s.cleanupTasks now maxAge).1).tasks) ∧
    ((s.cleanupTasks now maxAge).1.cleanupTasks now maxAge =
      ((s.cleanupTasks now maxAge).1, 0)) := by
  have hmain : (tid, t) ∈ ((s.cleanupTasks now maxAge).1).tasks ↔
      (tid, t) ∈ s.tasks ∧
      ¬(maxAge < now - t.lastUpdate ∧ t.status ≠ MgrStatus.running ∧
        t.status ≠ MgrStatus.awaiting_feedback) := by
    simp only [Sys.cleanupTasks, List.mem_filter, keepTask]
    constructor
    · rintro ⟨hm, hb⟩
      refine ⟨hm, ?_⟩
      rintro ⟨h1, h2, h3⟩
      simp [h1, h2, h3] at hb
    · rintro ⟨hm, hb⟩
      refine ⟨hm, ?_⟩
      by_cases h1 : maxAge < now - t.lastUpdate
      · by_cases h2 : t.status = MgrStatus.running
        · simp [h2]
        · by_cases h3 : t.status = MgrStatus.awaiting_feedback
          · simp [h3]
          · exact absurd ⟨h1, h2, h3⟩ hb
      · simp [h1]
  refine ⟨hmain, ?_, ?_⟩
  · intro hm hst
    refine hmain.mpr ⟨hm, ?_⟩
    rintro ⟨_, h2, h3⟩
    rcases hst with h | h
    · exact h2 h
    · exact h3 h
  · have hff : (((s.tasks.filter (fun p => keepTask now maxAge p.2))).filter
        (fun p => keepTask now maxAge p.2)) =
        s.tasks.filter (fun p => keepTask now maxAge p.2) := by
      rw [List.filter_filter]
      simp
    simp only [Sys.cleanupTasks, hff, Nat.sub_self]

/-- Witness for C9: the old running task survives cleanup while the stale
completed one is evicted. -/
theorem cleanup_contract_witness :
    ("t2", liveTask) ∈ ((cleanupScenario.cleanupTasks 100 10).1).tasks ∧
    ("t1", staleTask) ∉ ((cleanupScenario.cleanupTasks 100 10).1).tasks :=
  ⟨(cleanup_contract cleanupScenario 100 10 "t2" liveTask).2.1
      (List.Mem.tail _ (List.Mem.head _)) (Or.inl rfl),
   fun h => ((cleanup_contract cleanupScenario 100 10 "t1" staleTask).1.mp h).2
      ⟨by decide, by decide, by decide⟩⟩

/-! ## Differ lemmas -/

/-- Grouping the inventory never duplicates an item id. -/
theorem foldl_addInvItem_ids_nodup (l : List InvItem) :
    ∀ acc : List InvItem, (acc.map (fun g => g.id)).Nodup →
      ((l.foldl addInvItem acc).map (fun g => g.id)).Nodup := by
  induction l with
  | nil => intro acc h; exact h
  | cons a t ih =>
      intro acc h
      rw [List.foldl_cons]
      apply ih
      unfold addInvItem
      by_cases hmem : acc.any (fun g => g.id == a.id)
      · rw [if_pos hmem]
        have hids : ((acc.map (fun g =>
            if g.id == a.id then { g with count := g.count + a.count } else g)).map
              (fun g => g.id)) = acc.map (fun g => g.id) := by
          rw [List.map_map]
          apply List.map_congr_left
          intro g _
          by_cases h2 : g.id = a.id <;> simp [h2]
        rw [hids]
        exact h
      · rw [if_neg hmem, List.map_append, List.nodup_append]
        refine ⟨h, List.nodup_singleton _, ?_⟩
        intro x hx hx1
        rcases List.mem_map.mp hx with ⟨g, hg, rfl⟩
        have : g.id = a.id := by simpa using hx1
        exact hmem (List.any_eq_true.mpr ⟨g, hg, by simp [this]⟩)

/-- Item ids are unique in a grouped inventory. -/
theorem groupInv_ids_nodup (l : List InvItem) :
    ((groupInv l).map (fun g => g.id)).Nodup :=
  foldl_addInvItem_ids_nodup l [] (by simp)

/-- Looking up a grouped item's own id finds it. -/
theorem invLookup_self (l : List InvItem) (g : InvItem) (hg : g ∈ groupInv l) :
    invLookup (groupInv l) g.id = some g := by
  unfold invLookup
  exact find?_key_self (fun x => x.id) (groupInv l) g (groupInv_ids_nodup l) hg

/-- The gained/lost loops of `diff(S, S)` record nothing. -/
theorem invSection_self (l : List InvItem) :
    invSection l l = ({ gained := [], lost := [], changed := [] }, []) := by
  unfold invSection
  have hgain : (groupInv l).foldl (invGainStep (groupInv l)) ([], [], []) =
      (([], [], []) : List InvDelta × List InvChange × List String) := by
    apply foldl_fixed
    intro x hx st
    unfold invGainStep
    rw [invLookup_self l x hx]
    simp
  have hloss : ∀ init : List InvDelta × List InvChange × List String,
      (groupInv l).foldl (invLossStep (groupInv l)) init = init := by
    intro init
    apply foldl_fixed
    intro x hx st
    unfold invLossStep
    rw [invLookup_self l x hx]
    simp
  simp only [invSection]
  rw [hgain, hloss]
  rfl

/-- Looking a skill's own name up in a duplicate-free skill list finds it. -/
theorem skillLookup_self (l : List SkillState) (s : SkillState)
    (hnd : (l.map SkillState.name).Nodup) (hs : s ∈ l) :
    skillLookup l s.name = some s := by
  unfold skillLookup
  apply find?_key_self (fun x => x.name) l.reverse s
  · rw [List.map_reverse]
    exact List.nodup_reverse.mpr hnd
  · exact List.mem_reverse.mpr hs

/-- The skill loop of `diff(S, S)` records nothing when skill names are
unique. -/
theorem skillSection_self (l : List SkillState)
    (hnd : (l.map SkillState.name).Nodup) :
    skillSection l l = ([], []) := by
  unfold skillSection
  apply foldl_fixed
  intro x hx st
  unfold skillStep
  rw [skillLookup_self l x hnd hx]
  simp

/-- The combat section of `diff(S, S)` is all zero when the snapshot's
combat events are stamped no later than its tick. -/
theorem combatSection_self (s : BotWorldState)
    (ht : ∀ ev ∈ s.combatEvents.getD [], ev.tick ≤ s.tick) :
    combatSection s s =
      ({ damageTaken := 0, damageDealt := 0, kills := 0, healthChange := 0 }, []) := by
  unfold combatSection
  have hfilter : (s.combatEvents.getD []).filter (fun ev => s.tick < ev.tick) = [] :=
    List.filter_eq_nil_iff.mpr (fun ev hev => by simpa using ht ev hev)
  rw [hfilter]
  simp

/-- The position section of `diff(S, S)` is the unmoved default. -/
theorem positionSection_self (s : BotWorldState) :
    positionSection s s = ((createEmptyDiff 0).position, []) := by
  unfold positionSection
  cases hp : s.player with
  | none => rfl
  | some p => simp

/-- The UI section of `diff(S, S)` has every flag false. -/
theorem uiSection_self (s : BotWorldState) :
    uiSection s s =
      ({ dialogOpened := false, dialogClosed := false, interfaceOpened := false,
         interfaceClosed := false, shopOpened := false, shopClosed := false }, []) := by
  unfold uiSection
  simp

/-- Every entry of the NPC key map comes from the underlying list. -/
theorem foldl_addNpc_mem (l : List NearbyNpc) (P : NearbyNpc → Prop) :
    ∀ acc : List NearbyNpc, (∀ y ∈ acc, P y) → (∀ y ∈ l, P y) →
      ∀ x ∈ l.foldl addNpc acc, P x := by
  induction l with
  | nil => intro acc hacc _ x hx; exact hacc x hx
  | cons a t ih =>
      intro acc hacc hl x hx
      rw [List.foldl_cons] at hx
      refine ih (addNpc acc a) ?_ (fun y hy => hl y (List.mem_cons_of_mem a hy)) x hx
      intro y hy
      unfold addNpc at hy
      by_cases hmem : acc.any (fun m => m.index == a.index)
      · rw [if_pos hmem] at hy
        rcases List.mem_map.mp hy with ⟨m, hm, rfl⟩
        by_cases h2 : m.index == a.index
        · simpa [h2] using hl a (List.mem_cons_self a t)
        · simpa [h2] using hacc m hm
      · rw [if_neg hmem] at hy
        rcases List.mem_append.mp hy with h | h
        · exact hacc y h
        · rw [List.mem_singleton.mp h]
          exact hl a (List.mem_cons_self a t)

/-- Members of `npcMap l` are members of `l`. -/
theorem npcMap_subset (l : List NearbyNpc) : ∀ x ∈ npcMap l, x ∈ l :=
  foldl_addNpc_mem l (fun x => x ∈ l) [] (by simp) (fun y hy => hy)

/-- The NPC section of `diff(S, S)` is empty. -/
theorem npcSection_self (l : List NearbyNpc) :
    npcSection l l = ({ appeared := [], disappeared := [], died := [] }, []) := by
  unfold npcSection
  have hself : ∀ x ∈ l, l.any (fun m => m.index == x.index) = true :=
    fun x hx => List.any_eq_true.mpr ⟨x, hx, by simp⟩
  have happ : l.filter (fun n => !(l.any (fun m => m.index == n.index))) = [] :=
    List.filter_eq_nil_iff.mpr (fun n hn => by simp [hself n hn])
  have hgone : (npcMap l).filter (fun n => !(l.any (fun m => m.index == n.index))) = [] :=
    List.filter_eq_nil_iff.mpr (fun n hn => by simp [hself n (npcMap_subset l n hn)])
  rw [happ, hgone]
  rfl

/-- The message section of `diff(S, S)` is empty when the snapshot's game
messages are stamped no later than its tick. -/
theorem messageSection_self (s : BotWorldState)
    (ht : ∀ m ∈ s.gameMessages.getD [], m.tick ≤ s.tick) :
    messageSection s s = [] := by
  unfold messageSection
  rw [List.filter_eq_nil_iff.mpr (fun m hm => by simpa using ht m hm)]
  rfl

/-! ## C4 — diff identity -/

/-- C4 (amended): for every snapshot whose combat events and game messages
carry ticks no later than the snapshot's own tick and whose skills list has
no duplicate names, `computeStateDiff S S` is the canonical empty diff at
`S.tick`: empty summary, no inventory/xp/entity/message entries, zero
combat aggregates, `moved` false with distance 0, and all UI flags false. -/
theorem computeStateDiff_self (s : BotWorldState) (ht : s.wellTimed)
    (hsk : (s.skills.map SkillState.name).Nodup) :
    computeStateDiff s s = createEmptyDiff s.tick := by
  unfold computeStateDiff
  rw [invSection_self, skillSection_self s.skills hsk, combatSection_self s ht.1,
      positionSection_self, uiSection_self, npcSection_self,
      messageSection_self s ht.2]
  simp [createEmptyDiff]

/-- Witness for C4 on a populated well-formed snapshot. -/
theorem computeStateDiff_self_witness :
    computeStateDiff richSnap richSnap = createEmptyDiff 100 :=
  computeStateDiff_self richSnap ⟨by decide, by decide⟩ (by decide)

/-- Counterexample to C4 as stated: `diff(S, S)` is *not* empty for every
snapshot.  A combat event or game message stamped after the snapshot's own
tick is counted (`futureEventSnap`), and duplicate skill names make the
last-entry map lookup report a spurious xp gain (`dupSkillSnap`). -/
theorem computeStateDiff_self_not_always_empty :
    (computeStateDiff futureEventSnap futureEventSnap).summary = ["Took 3 damage"] ∧
    (computeStateDiff futureEventSnap futureEventSnap).combat.damageTaken = 3 ∧
    (computeStateDiff futureEventSnap futureEventSnap).messages = ["hi"] ∧
    (computeStateDiff dupSkillSnap dupSkillSnap).skills =
      [{ name := "Attack", xp := 5, levelUp := false, newLevel := none }] :=
  ⟨by decide, by decide, by decide, by decide⟩

/-- The fuelled search computes `⌊√n⌋` whenever the fuel suffices. -/
theorem sqrtAux_eq_sqrt (n : Nat) :
    ∀ fuel, Nat.sqrt n ≤ fuel → sqrtAux fuel n = Nat.sqrt n := by
  intro fuel
  induction fuel with
  | zero =>
      intro h
      simp only [sqrtAux]
      omega
  | succ f ih =>
      intro h
      unfold sqrtAux
      by_cases hle : (f + 1) * (f + 1) ≤ n
      · rw [if_pos hle]
        have h1 : f + 1 ≤ Nat.sqrt n := Nat.le_sqrt.mpr hle
        omega
      · rw [if_neg hle]
        apply ih
        by_cases heq : Nat.sqrt n = f + 1
        · exact absurd (heq ▸ Nat.sqrt_le n) hle
        · omega

/-- Sanity: `floorSqrt` is `Nat.sqrt`, so `roundSqrt n` is indeed
`⌊(⌊√(4n)⌋ + 1) / 2⌋`, the nearest integer to `√n`. -/
theorem floorSqrt_eq_sqrt (n : Nat) : floorSqrt n = Nat.sqrt n :=
  sqrtAux_eq_sqrt n n (Nat.sqrt_le_self n)

/-! ## C5 — level-up flag -/

/-- The skill loop is a `filterMap` over the after-skills. -/
theorem skillSection_foldl_eq (b : List SkillState) :
    ∀ (l : List SkillState) (acc : List XpEntry × List String),
      l.foldl (skillStep b) acc =
        (acc.1 ++ l.filterMap (xpPick b), acc.2 ++ l.filterMap (xpLinePick b)) := by
  intro l
  induction l with
  | nil => intro acc; simp
  | cons s t ih =>
      intro acc
      rw [List.foldl_cons, ih]
      cases hl : skillLookup b s.name with
      | none => simp [skillStep, xpPick, xpLinePick, hl]
      | some bs =>
          by_cases hxp : bs.experience < s.experience
          · simp [skillStep, xpPick, xpLinePick, hl, hxp, List.filterMap_cons]
          · simp [skillStep, xpPick, xpLinePick, hl, hxp, List.filterMap_cons]

/-- The `xpGained` list of a diff, characterized. -/
theorem computeStateDiff_skills_eq (before after : BotWorldState) :
    (computeStateDiff before after).skills =
      after.skills.filterMap (xpPick before.skills) := by
  show (skillSection before.skills after.skills).1 = _
  unfold skillSection
  rw [skillSection_foldl_eq]
  simp

/-- `xpPick` at a skill whose lookup succeeds. -/
theorem xpPick_of_lookup (b : List SkillState) (s bs : SkillState)
    (hl : skillLookup b s.name = some bs) :
    xpPick b s =
      if bs.experience < s.experience then some (mkXpEntry s bs) else none := by
  unfold xpPick
  rw [hl]

/-- C5 (amended): an `xpGained` entry is recorded exactly for the
after-skills whose looked-up before-state has strictly smaller experience;
such an entry carries `levelUp` true precisely when `baseLevel` strictly
increased, with `newLevel` equal to the post-transition `baseLevel` in that
case and absent otherwise.  In particular a level increase *without* a
strict experience increase produces no entry at all (see the
counterexample). -/
theorem xpGained_contract (before after : BotWorldState) :
    (∀ s b, s ∈ after.skills → skillLookup before.skills s.name = some b →
      b.experience < s.experience →
      ({ name := s.name
         xp := s.experience - b.experience
         levelUp := decide (b.baseLevel < s.baseLevel)
         newLevel := if b.baseLevel < s.baseLevel then some s.baseLevel else none } :
        XpEntry) ∈ (computeStateDiff before after).skills) ∧
    (∀ x, x ∈ (computeStateDiff before after).skills →
      ∃ s b, s ∈ after.skills ∧ skillLookup before.skills s.name = some b ∧
        b.experience < s.experience ∧ x = mkXpEntry s b) := by
  rw [computeStateDiff_skills_eq]
  constructor
  · intro s b hs hl hxp
    refine List.mem_filterMap.mpr ⟨s, hs, ?_⟩
    rw [xpPick_of_lookup before.skills s b hl, if_pos hxp]
    rfl
  · intro x hx
    rcases List.mem_filterMap.mp hx with ⟨s, hs, heq⟩
    cases hl : skillLookup before.skills s.name with
    | none =>
        rw [show xpPick before.skills s = none by unfold xpPick; rw [hl]] at heq
        cases heq
    | some bs =>
        rw [xpPick_of_lookup before.skills s bs hl] at heq
        by_cases hxp : bs.experience < s.experience
        · rw [if_pos hxp] at heq
          exact ⟨s, bs, hs, hl, hxp, (Option.some_inj.mp heq).symm⟩
        · rw [if_neg hxp] at heq
          cases heq

/-- Witness for C5: a skill that gained experience and a level yields the
entry with `levelUp` true and `newLevel` the post-level. -/
theorem xpGained_contract_witness :
    ({ name := "Mining", xp := 20, levelUp := true, newLevel := some 2 } : XpEntry)
      ∈ (computeStateDiff mineBefore mineAfter).skills :=
  (xpGained_contract mineBefore mineAfter).1
    { name := "Mining", experience := 30, level := 2, baseLevel := 2 }
    { name := "Mining", experience := 10, level := 1, baseLevel := 1 }
    (List.Mem.head _) rfl (by decide)

/-- Counterexample to C5 as stated: a level increase with *unchanged*
experience yields no `xpGained` entry at all — the code records an entry
only when experience strictly increased, so "a level increase regardless of
the experience delta yields an entry with levelUp true" fails. -/
theorem levelUp_without_xp_unrecorded :
    lvlBefore.skills = [{ name := "Attack", experience := 100, level := 5, baseLevel := 5 }] ∧
    lvlAfter.skills = [{ name := "Attack", experience := 100, level := 6, baseLevel := 6 }] ∧
    (computeStateDiff lvlBefore lvlAfter).skills = [] :=
  ⟨rfl, rfl, by decide⟩

/-! ## C6 — inventory stack merging -/

/-- C6: with two before-stacks of identity 995 (counts 100 and 50) and one
after-stack of 200, the stacks are merged before comparison: the diff
records a change 150 → 200 for identity 995 — a net gain of 50 in the
summary — and no `gained` entry of 200. -/
theorem inventory_merge_nets :
    (computeStateDiff mergeBefore mergeAfter).inventory.gained = [] ∧
    (computeStateDiff mergeBefore mergeAfter).inventory.lost = [] ∧
    (computeStateDiff mergeBefore mergeAfter).inventory.changed =
      [{ name := "Coins", before := 150, after := 200, id := 995 }] ∧
    (computeStateDiff mergeBefore mergeAfter).summary = ["+50 Coins"] :=
  ⟨by decide, by decide, by decide, by decide⟩

/-! ## C7 — movement threshold and rounded distance -/

/-- C7 (amended): when both snapshots carry player coordinates, `moved` is
true exactly when the squared Euclidean distance is nonzero, the structured
`distance` field is the Euclidean distance *rounded to the nearest
integer*, the position summary contribution is the "Moved N tiles" line
exactly when the squared distance is at least 25 (distance ≥ 5), and in
that case the line appears in the diff's summary. -/
theorem position_contract (before after : BotWorldState) (pb pa : PlayerPos)
    (hb : before.player = some pb) (ha : after.player = some pa) :
    ((computeStateDiff before after).position.moved =
      decide (0 < sqDist pb pa)) ∧
    ((computeStateDiff before after).position.distance =
      roundSqrt (sqDist pb pa).toNat) ∧
    ((positionSection before after).2 =
      if 25 ≤ sqDist pb pa then
        ["Moved " ++ toString (roundSqrt (sqDist pb pa).toNat) ++ " tiles"]
      else []) ∧
    (25 ≤ sqDist pb pa →
      ("Moved " ++ toString (roundSqrt (sqDist pb pa).toNat) ++ " tiles")
        ∈ (computeStateDiff before after).summary) := by
  have hpos : (computeStateDiff before after).position = (positionSection before after).1 :=
    rfl
  have hsec : positionSection before after =
      (if 0 < sqDist pb pa then
        ({ moved := true, fromPos := some pb, toPos := some pa,
           distance := roundSqrt (sqDist pb pa).toNat } : PosDiff)
       else (createEmptyDiff 0).position,
       if 25 ≤ sqDist pb pa then
         ["Moved " ++ toString (roundSqrt (sqDist pb pa).toNat) ++ " tiles"]
       else []) := by
    simp only [positionSection, hb, ha, sqDist]
    by_cases h : 0 < (pa.worldX - pb.worldX) * (pa.worldX - pb.worldX) +
        (pa.worldZ - pb.worldZ) * (pa.worldZ - pb.worldZ)
    · simp [h]
    · have h25 : ¬ 25 ≤ (pa.worldX - pb.worldX) * (pa.worldX - pb.worldX) +
          (pa.worldZ - pb.worldZ) * (pa.worldZ - pb.worldZ) := by omega
      simp [h, h25]
  have hsq0 : ¬ 0 < sqDist pb pa → sqDist pb pa = 0 := by
    intro h
    have h1 : 0 ≤ (pa.worldX - pb.worldX) * (pa.worldX - pb.worldX) :=
      mul_self_nonneg _
    have h2 : 0 ≤ (pa.worldZ - pb.worldZ) * (pa.worldZ - pb.worldZ) :=
      mul_self_nonneg _
    unfold sqDist at h ⊢
    omega
  refine ⟨?_, ?_, ?_, ?_⟩
  · rw [hpos, hsec]
    by_cases h : 0 < sqDist pb pa
    · simp [h]
    · simp [h, hsq0 h, createEmptyDiff]
  · rw [hpos, hsec]
    by_cases h : 0 < sqDist pb pa
    · simp [h]
    · have hz := hsq0 h
      simp [h, hz, createEmptyDiff, roundSqrt, floorSqrt, sqrtAux]
  · rw [hsec]
  · intro h25
    have hline : ("Moved " ++ toString (roundSqrt (sqDist pb pa).toNat) ++ " tiles")
        ∈ (positionSection before after).2 := by
      rw [hsec]
      simp only [if_pos h25]
      exact List.Mem.head _
    show _ ∈ (computeStateDiff before after).summary
    have hsum : (computeStateDiff before after).summary =
        (invSection before.inventory after.inventory).2 ++
        (skillSection before.skills after.skills).2 ++
        (combatSection before after).2 ++
        (positionSection before after).2 ++
        (uiSection before after).2 ++
        (npcSection before.nearbyNpcs after.nearbyNpcs).2 := rfl
    rw [hsum]
    exact List.mem_append_left _ (List.mem_append_left _
      (List.mem_append_right _ hline))

/-- Witness for C7 at a move of exactly (3, 4): distance 5, summary line
present. -/
theorem position_contract_witness :
    (computeStateDiff posBefore posAfterFar).position.moved = decide (0 < (25 : Int)) ∧
    ("Moved " ++ toString (roundSqrt (Int.toNat 25)) ++ " tiles")
      ∈ (computeStateDiff posBefore posAfterFar).summary :=
  ⟨(position_contract posBefore posAfterFar
      { worldX := 0, worldZ := 0 } { worldX := 3, worldZ := 4 } rfl rfl).1,
   (position_contract posBefore posAfterFar
      { worldX := 0, worldZ := 0 } { worldX := 3, worldZ := 4 } rfl rfl).2.2.2
      (by decide)⟩

/-- Counterexample to C7 as stated: moving from (0,0) to (1,1) has true
Euclidean distance √2, yet the structured `distance` field holds the
rounded value 1 — its square (1) differs from the true squared distance
(2), so the field does not carry the unaltered distance value. -/
theorem distance_field_is_rounded :
    (computeStateDiff posBefore posAfter).position.moved = true ∧
    (computeStateDiff posBefore posAfter).position.distance = 1 ∧
    (sqDist { worldX := 0, worldZ := 0 } { worldX := 1, worldZ := 1 }).toNat = 2 ∧
    (computeStateDiff posBefore posAfter).position.distance *
      (computeStateDiff posBefore posAfter).position.distance ≠ 2 :=
  ⟨by decide, by decide, by decide, by decide⟩

end RsSdk
